import Mathlib

/-!
Verification of the storage layer and command handlers of the Telegram bot
in `bot.py` (class `UpstashRedisManager` plus the admin/message handlers).

The Redis state touched by the program is embedded as an explicit `Store`
value; every manager method becomes a state-passing function.  An operation
that the Python code wraps in `try/except` is modelled as all-or-nothing:
the flag `Store.ok` says whether the Redis connection is usable (the
constructor pinged successfully and calls do not raise); when `ok` is
false the function returns the `except` branch's default and leaves the
state unchanged, exactly like the Python handler that catches the
exception.  Timestamps (`datetime.now().isoformat()`) are passed in as an
explicit `now : String` argument.
-/

namespace Bot

/-- Association list lookup by numeric key, first match (Redis keys are
unique, but the model does not assume it where it matters). -/
def lookupA {α : Type} : List (Nat × α) → Nat → Option α
  | [], _ => none
  | p :: rest, k => if p.1 = k then some p.2 else lookupA rest k

/-- Association list write: replace the first binding of the key, or append
a fresh binding at the end (so enumeration order is insertion order). -/
def setA {α : Type} : List (Nat × α) → Nat → α → List (Nat × α)
  | [], k, v => [(k, v)]
  | p :: rest, k, v => if p.1 = k then (k, v) :: rest else p :: setA rest k v

/-- Whether `sub` occurs as a contiguous run inside `l`: either at the
front or somewhere in the tail. -/
def containsSub (sub : List Char) : List Char → Bool
  | [] => sub.isEmpty
  | c :: rest => sub.isPrefixOf (c :: rest) || containsSub sub rest

/-- Python's substring test `sub in s`, on code points. -/
def strContains (s sub : String) : Bool := containsSub sub.data s.data

/-- Python's slice `s[:n]`, on code points. -/
def pySlice (s : String) (n : Nat) : String := ⟨s.data.take n⟩

/-- Python's `s.lower()`, per code point. -/
def pyLower (s : String) : String := ⟨s.data.map Char.toLower⟩

/-- Python's `s.startswith(pre)`, on code points. -/
def pyStartsWith (s pre : String) : Bool := pre.data.isPrefixOf s.data

/-- Python's `s.split(sep)` for a one-character separator, on code
points: every occurrence of the separator starts a new chunk. -/
def splitCh (sep : Char) : List Char → List (List Char)
  | [] => [[]]
  | c :: rest =>
    match splitCh sep rest with
    | [] => [[]]
    | h :: t => if c = sep then [] :: h :: t else (c :: h) :: t

/-- Python's `s.split(":")` as the code uses it on key strings. -/
def pySplit (s : String) (sep : Char) : List String :=
  (splitCh sep s.data).map (fun l => ⟨l⟩)

/-- The fields the program ever writes into a `user:<id>` Redis hash
(`hset` at lines 87-92, `hincrby`/`hset` at lines 132-133).  A `none`
field is one the hash does not contain; the all-`none` value is the empty
dict `hgetall` returns for a missing key. -/
structure UserHash where
  username : Option String
  first_name : Option String
  last_seen : Option String
  message_count : Option Nat
deriving DecidableEq

def emptyHash : UserHash := ⟨none, none, none, none⟩

/-- The payload stored under `message:<id>` (lines 119-125). -/
structure MessageData where
  user_id : Nat
  text : String
  mtype : String
  timestamp : String
  message_id : Nat
deriving DecidableEq

/-- The slice of the Redis database the program touches.
`ttlLog` is the trace of `EXPIRE key seconds` calls issued by `save_user`
(line 95) and `save_message` (line 128), in order; `userTTL`/`msgTTL`
additionally record the last window set per key.  `commands` stands for
the daily quota counter maintained by `increment_command_counter`
(lines 69-78); that key's own INCR/EXPIRE bookkeeping is abstracted to
this single counter since no retention claim mentions it. -/
structure Store where
  ok : Bool
  users : List (Nat × UserHash)
  messages : List (Nat × MessageData)
  histories : List (Nat × List Nat)
  userTTL : List (Nat × Nat)
  msgTTL : List (Nat × Nat)
  ttlLog : List (String × Nat)
  globalMessageId : Nat
  commands : Nat
  memory : String
deriving DecidableEq

/-- `increment_command_counter` (lines 69-78). -/
def incrCounter (st : Store) : Store := { st with commands := st.commands + 1 }

/-- The dict built by `start_command` and passed to `save_user`; the code
reads it with `user_data.get(field, "")`. -/
structure UserData where
  username : Option String
  first_name : Option String
deriving DecidableEq

/-- `save_user` (lines 82-99): `hset` of a mapping containing all four
fields (so any previously stored values of those fields are overwritten;
the hash never holds other fields), then `EXPIRE` of 90 days. -/
def save_user (st : Store) (now : String) (user_id : Nat) (ud : UserData) :
    Store × Bool :=
  if st.ok then
    let st := incrCounter st
    let h : UserHash :=
      { username := some (ud.username.getD "")
        first_name := some (ud.first_name.getD "")
        last_seen := some now
        message_count := some 0 }
    ({ st with
        users := setA st.users user_id h
        userTTL := setA st.userTTL user_id (90 * 86400)
        ttlLog := st.ttlLog ++ [("user:" ++ toString user_id, 90 * 86400)] },
      true)
  else (st, false)

/-- `save_message` (lines 110-144): INCR the global id, `hset` the payload
(text sliced to 500), 30-day EXPIRE on it, HINCRBY the user's
message_count and refresh last_seen, LPUSH the id onto the user's list and
LTRIM to the 50 newest.  Returns the minted id, or `None` when the store
raises. -/
def save_message (st : Store) (now : String) (user_id : Nat)
    (message : String) (message_type : String) : Store × Option Nat :=
  if st.ok then
    let st := incrCounter st
    let message_id := st.globalMessageId + 1
    let md : MessageData :=
      { user_id := user_id
        text := pySlice message 500
        mtype := message_type
        timestamp := now
        message_id := message_id }
    let st := { st with
        globalMessageId := message_id
        messages := setA st.messages message_id md
        msgTTL := setA st.msgTTL message_id (30 * 86400)
        ttlLog := st.ttlLog ++ [("message:" ++ toString message_id, 30 * 86400)] }
    let h : UserHash :=
      match lookupA st.users user_id with
      | some h =>
          { h with
              message_count := some (h.message_count.getD 0 + 1)
              last_seen := some now }
      | none =>
          { username := none
            first_name := none
            last_seen := some now
            message_count := some 1 }
    let st := { st with users := setA st.users user_id h }
    let old := (lookupA st.histories user_id).getD []
    let st := { st with
        histories := setA st.histories user_id ((message_id :: old).take 50) }
    (st, some message_id)
  else (st, none)

/-- `get_user` (lines 101-108): `hgetall`, empty dict on a missing key or
on failure. -/
def get_user (st : Store) (user_id : Nat) : Store × UserHash :=
  if st.ok then
    let st := incrCounter st
    (st, (lookupA st.users user_id).getD emptyHash)
  else (st, emptyHash)

/-- One row of the `last_messages` view (lines 160-163). -/
structure MsgView where
  text : String
  time : String
deriving DecidableEq

/-- The `for msg_id in last_messages_ids` loop of `get_user_stats`
(lines 156-163): look each id up, silently skip ids whose `message:<id>`
hash is gone (`if msg:`), keep list order. -/
def buildViews (st : Store) : List Nat → List MsgView
  | [] => []
  | i :: rest =>
    match lookupA st.messages i with
    | some m =>
        { text := pySlice m.text 50 ++ "...", time := pySlice m.timestamp 16 }
          :: buildViews st rest
    | none => buildViews st rest

/-- The dict returned by `get_user_stats` (lines 165-170). -/
structure UserStats where
  message_count : Nat
  last_seen : String
  username : String
  last_messages : List MsgView
deriving DecidableEq

/-- `get_user_stats` (lines 146-172): LRANGE of the 5 newest history ids,
then the skip-absent view loop; `none` models the `except` branch's `{}`. -/
def get_user_stats (st : Store) (user_id : Nat) : Store × Option UserStats :=
  if st.ok then
    let st := incrCounter st
    let (st, user_data) := get_user st user_id
    let last_messages_ids := ((lookupA st.histories user_id).getD []).take 5
    let last_messages := buildViews st last_messages_ids
    (st, some
      { message_count := user_data.message_count.getD 0
        last_seen := user_data.last_seen.getD "никогда"
        username := user_data.username.getD "неизвестно"
        last_messages := last_messages })
  else (st, none)

/-- The key strings `KEYS user:*` returns in the model: one `user:<id>`
per stored hash and one `user:<id>:messages` per history list (Redis's
enumeration order is unspecified; the model fixes insertion order). -/
def Store.userKeys (st : Store) : List String :=
  st.users.map (fun p => "user:" ++ toString p.1) ++
    st.histories.map (fun p => "user:" ++ toString p.1 ++ ":messages")

/-- The two-line idiom `keys("user:*")` + drop keys containing
`":messages"`, duplicated verbatim at lines 180-182 (`get_global_stats`)
and 433-434 (`broadcast_command`). -/
def Store.realUsers (st : Store) : List String :=
  st.userKeys.filter (fun k => !strContains k ":messages")

/-- The dict returned by `get_global_stats` (lines 195-200). -/
structure GlobalStats where
  total_users : Nat
  today_messages : Nat
  redis_status : String
  memory_used : String
deriving DecidableEq

/-- `get_global_stats` (lines 174-202): count the `user:*` keys without
`":messages"` in them, count today's timestamps among the first 100
`message:*` keys, report status and memory; the `except` branch's
`{"error": ...}` dict is the `.error` case. -/
def get_global_stats (st : Store) (today : String) :
    Store × Except String GlobalStats :=
  if st.ok then
    let st := incrCounter st
    let real_users := st.realUsers
    let all_timestamps := (st.messages.map (fun p => p.2.timestamp)).take 100
    let today_messages :=
      (all_timestamps.filter (fun t => pyStartsWith t today)).length
    (st, .ok
      { total_users := real_users.length
        today_messages := today_messages
        redis_status := if st.ok then "✅ Online" else "❌ Offline"
        memory_used := st.memory })
  else (st, .error "store unavailable")

/-- One entry of `search_users`' result list (lines 222-227). -/
structure SearchResult where
  user_id : String
  username : String
  first_name : String
  message_count : Nat
deriving DecidableEq

/-- `hgetall` addressed by a key string, as the search loop issues it
(line 214).  Only `user:<id>` hash keys are ever passed here (the loop
filters out `:messages` keys first). -/
def Store.hgetallByKey (st : Store) (key : String) : UserHash :=
  ((st.users.find? (fun p => "user:" ++ toString p.1 = key)).map (·.2)).getD
    emptyHash

/-- The `for key in user_keys` loop of `search_users` (lines 212-227):
skip `:messages` keys, lowercase the stored fields, match the lowered term
against them or the raw term against the whole key string, collect rows in
key order. -/
def searchLoop (st : Store) (term : String) : List String → List SearchResult
  | [] => []
  | key :: rest =>
    if !strContains key ":messages" then
      let user_data := st.hgetallByKey key
      let username := pyLower (user_data.username.getD "")
      let first_name := pyLower (user_data.first_name.getD "")
      let search_term_lower := pyLower term
      if strContains username search_term_lower ||
          strContains first_name search_term_lower ||
          strContains key term then
        { user_id := (pySplit key ':').getD 1 ""
          username := user_data.username.getD ""
          first_name := user_data.first_name.getD ""
          message_count := user_data.message_count.getD 0 }
          :: searchLoop st term rest
      else searchLoop st term rest
    else searchLoop st term rest

/-- `search_users` (lines 204-231): run the loop over all `user:*` keys
and keep the first 10 rows; `[]` on failure. -/
def search_users (st : Store) (term : String) : Store × List SearchResult :=
  if st.ok then
    let st := incrCounter st
    (st, (searchLoop st term st.userKeys).take 10)
  else (st, [])

/-- The out-of-band configuration the handlers read: `ADMIN_ID` from the
environment (absent → `none`) and whether `redis_manager` was constructed
(`UPSTASH_REDIS_URL` set, lines 234-238). -/
structure Cfg where
  adminId : Option String
  hasRedis : Bool
deriving DecidableEq

/-- The admin gate `if admin_id and str(user.id) != admin_id` (lines 356,
392, 418): denial requires `ADMIN_ID` to be set, non-empty (Python
truthiness) and different from the caller's id rendered as a string. -/
def isDenied (cfg : Cfg) (uid : Nat) : Bool :=
  match cfg.adminId with
  | some a => a != "" && toString uid != a
  | none => false

/-- The `for i, result in enumerate(results, 1)` formatting loop of
`search_command` (lines 371-376). -/
def resultLines : Nat → List SearchResult → String
  | _, [] => ""
  | i, r :: rest =>
      "*" ++ toString i ++ ".* ID: `" ++ r.user_id ++ "`\n   👤 " ++
        r.first_name ++ " (@" ++ (if r.username = "" then "нет" else r.username) ++
        ")\n   💬 Сообщений: " ++ toString r.message_count ++ "\n\n" ++
        resultLines (i + 1) rest

/-- `search_command` (lines 350-385).  Result: the texts sent back to the
caller, in order, and the store after the handler ran. -/
def search_command (cfg : Cfg) (st : Store) (now : String) (uid : Nat)
    (args : List String) : List String × Store :=
  if isDenied cfg uid then
    (["❌ Эта команда только для администратора"], st)
  else if args.isEmpty then
    (["Используйте: /search <имя или username>"], st)
  else
    let search_term := " ".intercalate args
    if cfg.hasRedis then
      let (st, results) := search_users st search_term
      let search_text :=
        if !results.isEmpty then
          "🔍 *Результаты поиска \x27" ++ search_term ++ "\x27:*\n\n" ++
            resultLines 1 results
        else
          "🔍 По запросу \x27" ++ search_term ++ "\x27 ничего не найдено."
      let (st, _) := save_message st now uid ("/search " ++ search_term) "command"
      ([search_text], st)
    else
      (["❌ Redis не доступен."], st)

/-- `admin_command` (lines 387-411). -/
def admin_command (cfg : Cfg) (st : Store) (now : String) (uid : Nat) :
    List String × Store :=
  if isDenied cfg uid then
    (["❌ Нет доступа"], st)
  else
    let admin_text :=
      "🛠️ *Админ-панель*\n\n*Доступные команды:*\n/search <текст> - поиск пользователей\n/broadcast <текст> - рассылка\n/stats - статистика\n\n*Upstash Redis:*\n• Команд сегодня: (см /stats)\n• Память: (см /stats)\n• Пользователей: (см /stats)"
    if cfg.hasRedis then
      let (st, _) := save_message st now uid "/admin" "command"
      ([admin_text], st)
    else
      ([admin_text], st)

/-- The `for user_key in real_users[:50]` loop of `broadcast_command`
(lines 442-453): split the chat id out of the key, attempt the send, count
it when it succeeds, swallow the failure otherwise and continue.  Returns
the success count and the trace of chat ids a send was attempted for, in
loop order.  `sendOk` says which deliveries the gateway accepts. -/
def fanout (sendOk : String → Bool) : List String → Nat × List String
  | [] => (0, [])
  | key :: rest =>
    let user_id := (pySplit key ':').getD 1 ""
    let (s, ids) := fanout sendOk rest
    ((if sendOk user_id then 1 else 0) + s, user_id :: ids)

/-- The outputs of `broadcast_command`: texts replied to the admin, chat
ids a send was attempted for, and the store afterwards. -/
structure BroadcastOut where
  replies : List String
  sent : List String
  st : Store
deriving DecidableEq

/-- `broadcast_command` (lines 413-457). -/
def broadcast_command (cfg : Cfg) (st : Store) (now : String) (uid : Nat)
    (args : List String) (sendOk : String → Bool) : BroadcastOut :=
  if isDenied cfg uid then
    ⟨["❌ Нет доступа"], [], st⟩
  else if args.isEmpty then
    ⟨["Используйте: /broadcast <текст сообщения>"], [], st⟩
  else if !cfg.hasRedis then
    ⟨["❌ Redis не доступен"], [], st⟩
  else
    let broadcast_text := " ".intercalate args
    let real_users := st.realUsers
    if real_users.isEmpty then
      ⟨["❌ Нет пользователей для рассылки"], [], st⟩
    else
      let r1 := "📢 Рассылка " ++ toString real_users.length ++ " пользователям..."
      let (success, sent) := fanout sendOk (real_users.take 50)
      let r2 := "✅ Отправлено " ++ toString success ++ "/" ++
        toString real_users.length ++ " пользователям"
      let (st, _) :=
        save_message st now uid ("/broadcast " ++ pySlice broadcast_text 50 ++ "...")
          "command"
      ⟨[r1, r2], sent, st⟩

/-- `handle_message` (lines 459-477): save the text, acknowledge with the
minted id when saving worked (`if message_id:` — Python truthiness), with
the save-error text when it returned `None`, and with the redis-off text
when there is no manager. -/
def handle_message (cfg : Cfg) (st : Store) (now : String) (uid : Nat)
    (text : String) : List String × Store :=
  if cfg.hasRedis then
    let (st, message_id) := save_message st now uid text "text"
    match message_id with
    | some m =>
        if m != 0 then
          (["✅ Сообщение #" ++ toString m ++ " сохранено в Upstash Redis!"], st)
        else
          (["📝 Сообщение получено (ошибка сохранения)"], st)
    | none => (["📝 Сообщение получено (ошибка сохранения)"], st)
  else
    (["📝 Сообщение получено (Redis отключен)"], st)

/-- The manager operations a run of the program can interleave between two
`save_message` calls (every method of `UpstashRedisManager` the handlers
invoke). -/
inductive Op where
  | saveUser (now : String) (uid : Nat) (ud : UserData)
  | saveMessage (now : String) (uid : Nat) (msg : String) (mtype : String)
  | getUser (uid : Nat)
  | getUserStats (uid : Nat)
  | getGlobalStats (today : String)
  | searchUsers (term : String)

/-- State effect of one manager operation. -/
def applyOp (st : Store) : Op → Store
  | .saveUser now uid ud => (save_user st now uid ud).1
  | .saveMessage now uid m t => (save_message st now uid m t).1
  | .getUser uid => (get_user st uid).1
  | .getUserStats uid => (get_user_stats st uid).1
  | .getGlobalStats today => (get_global_stats st today).1
  | .searchUsers term => (search_users st term).1

/-- State effect of a sequence of manager operations, oldest first. -/
def applyOps (st : Store) (l : List Op) : Store := l.foldl applyOp st

/-- `n` consecutive `save_message` calls for one user (the repeated-append
scenario of the history claims). -/
def appendN (st : Store) (now : String) (uid : Nat) (msg : String) : Nat → Store
  | 0 => st
  | n + 1 => (save_message (appendN st now uid msg n) now uid msg "text").1

/-- Facts about the decimal rendering of the stored numeric ids that the
key-string manipulations of the code rely on: a `user:<id>` hash key never
contains the `":messages"` marker, splits back into `["user", <id>]`, and
distinct hashes have distinct keys.  All three always hold for decimal
digit strings; stated as a decidable side condition on the store. -/
def Store.KeysWf (st : Store) : Prop :=
  (∀ p ∈ st.users, strContains ("user:" ++ toString p.1) ":messages" = false) ∧
  (∀ p ∈ st.users, pySplit ("user:" ++ toString p.1) ':' = ["user", toString p.1]) ∧
  (st.users.map (fun p => "user:" ++ toString p.1)).Nodup

instance (st : Store) : Decidable st.KeysWf := by
  unfold Store.KeysWf; infer_instance

/-- The per-user condition the `search_users` loop actually tests: the
lowered term occurs in the lowered username or first name, or the raw term
occurs (case-sensitively) in the whole key string `user:<id>`. -/
def codeMatches (term : String) (uid : Nat) (h : UserHash) : Bool :=
  strContains (pyLower (h.username.getD "")) (pyLower term) ||
  strContains (pyLower (h.first_name.getD "")) (pyLower term) ||
  strContains ("user:" ++ toString uid) term

/-- The result row `search_users` builds for a matching user. -/
def mkResult (uid : Nat) (h : UserHash) : SearchResult :=
  { user_id := toString uid
    username := h.username.getD ""
    first_name := h.first_name.getD ""
    message_count := h.message_count.getD 0 }

/-- The `search` operation as §4.5 of the spec words it (for comparison
with `search_users`): case-insensitive substring match of the term against
the handle, the display name, or the raw user identifier, missing fields
as empty strings, at most 10 matches in enumeration order. -/
def search_users_spec (st : Store) (term : String) : List SearchResult :=
  ((st.users.filter (fun p =>
      strContains (pyLower (p.2.username.getD "")) (pyLower term) ||
      strContains (pyLower (p.2.first_name.getD "")) (pyLower term) ||
      strContains (pyLower (toString p.1)) (pyLower term))).map
    (fun p => mkResult p.1 p.2)).take 10

/-- A fresh, reachable, empty store. -/
def exStore : Store := ⟨true, [], [], [], [], [], [], 0, 0, "1M"⟩

/-- An unreachable store (the constructor's `ping` failed, `self.redis`
was set to `None`). -/
def exStoreDown : Store := ⟨false, [], [], [], [], [], [], 0, 0, "1M"⟩

def exUD : UserData := ⟨some "al", some "Alice"⟩

/-- First upsert of user 7, then one message from them (message count 1). -/
def c1mid : Store :=
  (save_message (save_user exStore "2024-01-01T10:00:00" 7 exUD).1
    "2024-01-01T11:00:00" 7 "hi" "text").1

/-- A second upsert of user 7, at a later timestamp. -/
def c1after : Store := (save_user c1mid "2024-01-02T10:00:00" 7 exUD).1

/-- A store holding 51 user records (and nothing else). -/
def many51 : Store :=
  ⟨true, (List.range 51).map (fun i => (i, ⟨some "u", some "U", some "t", some 0⟩)),
    [], [], [], [], [], 0, 0, "1M"⟩

/-- A store with a single user whose fields contain no letter of the word
`user`: `username = "bob"`, empty first name, identifier 1. -/
def c6Store : Store :=
  ⟨true, [(1, ⟨some "bob", some "", some "t", some 0⟩)], [], [], [], [], [], 0, 0, "1M"⟩

/-- User 1 upserted once (so their record's expiry was set to 90 days),
then one message saved for them. -/
def c7base : Store := (save_user exStore "2024-01-01T00:00:00" 1 exUD).1

def c7after : Store := (save_message c7base "2024-01-02T00:00:00" 1 "hi" "text").1

/-- A store where user 7's history lists seven message ids but only the
payloads of ids 1 and 3 still exist (the others expired). -/
def c10Store : Store :=
  ⟨true, [(7, ⟨some "al", some "Alice", some "t", some 9⟩)],
    [(1, ⟨7, "first", "text", "2024-01-01T00:00:00", 1⟩),
     (3, ⟨7, "third", "text", "2024-01-03T00:00:00", 3⟩)],
    [(7, [7, 6, 5, 4, 3, 2, 1])], [], [], [], 7, 0, "1M"⟩

/-! ## Basic facts about the embedding -/

theorem lookupA_setA_self {α : Type} (l : List (Nat × α)) (k : Nat) (v : α) :
    lookupA (setA l k v) k = some v := by
  induction l with
  | nil => simp [setA, lookupA]
  | cons p rest ih =>
      by_cases h : p.1 = k
      · simp [setA, h, lookupA]
      · simp [setA, h, lookupA, ih]

theorem lookupA_setA_ne {α : Type} (l : List (Nat × α)) (k k' : Nat) (v : α)
    (h : k' ≠ k) : lookupA (setA l k v) k' = lookupA l k' := by
  have hkk : ¬(k = k') := fun hh => h hh.symm
  induction l with
  | nil => simp [setA, lookupA, hkk]
  | cons p rest ih =>
      by_cases hpk : p.1 = k
      · simp [setA, hpk, lookupA, hkk]
      · simp [setA, hpk, lookupA, ih]

theorem containsSub_iff (sub l : List Char) :
    containsSub sub l = true ↔ sub <:+: l := by
  induction l with
  | nil => simp [containsSub, List.isEmpty_iff]
  | cons c rest ih =>
      simp [containsSub, ih, List.infix_cons_iff]

/-- A key string ending in the literal `":messages"` marker always tests
positive for it (the suffix is an occurrence). -/
theorem strContains_marker (s : String) :
    strContains (s ++ ":messages") ":messages" = true := by
  rw [strContains, containsSub_iff, String.data_append]
  exact (List.suffix_append s.data _).isInfix

/-- What a successful `save_user` call does to the store, in one equation. -/
theorem save_user_eq (st : Store) (now : String) (uid : Nat) (ud : UserData)
    (hok : st.ok = true) :
    save_user st now uid ud =
      ({ st with
          commands := st.commands + 1
          users := setA st.users uid
            ⟨some (ud.username.getD ""), some (ud.first_name.getD ""),
              some now, some 0⟩
          userTTL := setA st.userTTL uid (90 * 86400)
          ttlLog := st.ttlLog ++ [("user:" ++ toString uid, 90 * 86400)] },
        true) := by
  simp [save_user, hok, incrCounter]

/-- The combined effect of the HINCRBY + HSET pair on the user hash. -/
def bumpHash (h : Option UserHash) (now : String) : UserHash :=
  match h with
  | some h =>
      { h with
          message_count := some (h.message_count.getD 0 + 1)
          last_seen := some now }
  | none => ⟨none, none, some now, some 1⟩

/-- What a successful `save_message` call does to the store, in one
equation. -/
theorem save_message_eq (st : Store) (now : String) (uid : Nat)
    (m ty : String) (hok : st.ok = true) :
    save_message st now uid m ty =
      ({ st with
          commands := st.commands + 1
          globalMessageId := st.globalMessageId + 1
          messages := setA st.messages (st.globalMessageId + 1)
            ⟨uid, pySlice m 500, ty, now, st.globalMessageId + 1⟩
          msgTTL := setA st.msgTTL (st.globalMessageId + 1) (30 * 86400)
          ttlLog := st.ttlLog ++
            [("message:" ++ toString (st.globalMessageId + 1), 30 * 86400)]
          users := setA st.users uid (bumpHash (lookupA st.users uid) now)
          histories := setA st.histories uid
            (((st.globalMessageId + 1) :: (lookupA st.histories uid).getD []).take 50) },
        some (st.globalMessageId + 1)) := by
  simp only [save_message, hok, if_true, incrCounter, bumpHash]

theorem save_message_fail (st : Store) (now : String) (uid : Nat)
    (m ty : String) (hok : st.ok = false) :
    save_message st now uid m ty = (st, none) := by
  simp [save_message, hok]

theorem save_user_ok (st : Store) (now : String) (uid : Nat) (ud : UserData) :
    (save_user st now uid ud).1.ok = st.ok := by
  cases hok : st.ok <;> simp [save_user, hok, incrCounter]

theorem save_message_ok (st : Store) (now : String) (uid : Nat) (m ty : String) :
    (save_message st now uid m ty).1.ok = st.ok := by
  cases hok : st.ok
  · simp [save_message_fail st now uid m ty hok, hok]
  · simp [save_message_eq st now uid m ty hok, hok]

/-- A `save_message` call that returned an id ran on a live store and
minted exactly the incremented global counter, which the new store now
carries. -/
theorem save_message_some (st : Store) (now : String) (uid : Nat)
    (m ty : String) (s : Nat)
    (h : (save_message st now uid m ty).2 = some s) :
    st.ok = true ∧ s = st.globalMessageId + 1 ∧
      (save_message st now uid m ty).1.globalMessageId = s := by
  cases hok : st.ok
  · rw [save_message_fail st now uid m ty hok] at h; simp at h
  · rw [save_message_eq st now uid m ty hok] at h ⊢
    simp at h
    simp [h]

/-- No manager operation ever decreases the global message counter. -/
theorem applyOp_gid_mono (st : Store) (op : Op) :
    st.globalMessageId ≤ (applyOp st op).globalMessageId := by
  cases op <;> cases hok : st.ok <;>
    simp [applyOp, save_user, save_message, get_user, get_user_stats,
      get_global_stats, search_users, incrCounter, hok]

theorem applyOps_gid_mono (l : List Op) (st : Store) :
    st.globalMessageId ≤ (applyOps st l).globalMessageId := by
  induction l generalizing st with
  | nil => exact Nat.le_refl _
  | cons op rest ih =>
      exact Nat.le_trans (applyOp_gid_mono st op) (ih (applyOp st op))

/-! ## C1 — profile upsert -/

/-- Claim C1 states that a second `save_user` upsert merges only the
supplied fields and leaves other stored fields such as the message count
unchanged.  It is false: after user 7's first upsert and one saved message
their stored count is 1, and the second upsert resets it to 0 (the `hset`
mapping at lines 87-92 unconditionally contains `"message_count": 0`).
No creation-timestamp field exists in the record at all. -/
theorem c1_counterexample :
    (lookupA c1mid.users 7).bind UserHash.message_count = some 1 ∧
    (lookupA c1after.users 7).bind UserHash.message_count = some 0 := by
  decide

/-- Claim C1 (amended): every `save_user` call, first or later, writes the
record to exactly the supplied username and first name, last-seen equal to
the call's timestamp, and message count 0; in particular a second upsert
with a later timestamp advances last-seen to the later value but resets
the message count, and no creation timestamp is kept. -/
theorem c1_amended (st : Store) (t1 t2 : String) (uid : Nat)
    (ud1 ud2 : UserData) (hok : st.ok = true) (_hne : t1 ≠ t2) :
    lookupA (save_user st t1 uid ud1).1.users uid =
      some ⟨some (ud1.username.getD ""), some (ud1.first_name.getD ""),
        some t1, some 0⟩ ∧
    lookupA (save_user (save_user st t1 uid ud1).1 t2 uid ud2).1.users uid =
      some ⟨some (ud2.username.getD ""), some (ud2.first_name.getD ""),
        some t2, some 0⟩ := by
  have hok1 : (save_user st t1 uid ud1).1.ok = true := by
    rw [save_user_ok]; exact hok
  rw [save_user_eq _ _ _ _ hok1]
  rw [save_user_eq st t1 uid ud1 hok]
  exact ⟨lookupA_setA_self .., lookupA_setA_self ..⟩

theorem c1_amended_witness :
    exStore.ok = true ∧ ("2024-01-01T10:00:00" : String) ≠ "2024-01-02T10:00:00" ∧
    lookupA (save_user exStore "2024-01-01T10:00:00" 7 exUD).1.users 7 =
      some ⟨some "al", some "Alice", some "2024-01-01T10:00:00", some 0⟩ :=
  ⟨rfl, by decide,
    (c1_amended exStore "2024-01-01T10:00:00" "2024-01-02T10:00:00" 7 exUD exUD
      rfl (by decide)).1⟩

/-! ## C4 — global sequence numbers -/

/-- Claim C4: across any two successful `save_message` calls of one run,
in any order, for any users, with any other manager operations in
between, the sequence number minted later is strictly greater than the
earlier one — so numbers are never reused. -/
theorem c4_sequence_monotone (st : Store) (l : List Op) (now1 now2 : String)
    (u1 u2 : Nat) (m1 m2 ty1 ty2 : String) (s1 s2 : Nat)
    (h1 : (save_message st now1 u1 m1 ty1).2 = some s1)
    (h2 : (save_message (applyOps (save_message st now1 u1 m1 ty1).1 l)
        now2 u2 m2 ty2).2 = some s2) :
    s1 < s2 := by
  obtain ⟨-, hs1, hg1⟩ := save_message_some _ _ _ _ _ _ h1
  obtain ⟨-, hs2, -⟩ := save_message_some _ _ _ _ _ _ h2
  have hmono := applyOps_gid_mono l (save_message st now1 u1 m1 ty1).1
  omega

theorem c4_witness :
    (save_message exStore "t1" 1 "a" "text").2 = some 1 ∧ (1 : Nat) < 2 :=
  ⟨by decide,
    c4_sequence_monotone exStore [Op.saveUser "t" 2 exUD] "t1" "t2" 1 2 "a" "b"
      "text" "text" 1 2 (by decide) (by decide)⟩

/-! ## C7 — retention windows -/

/-- Claim C7 states that every operation writing the user record resets
its expiry to the 90-day window.  It is false for the per-message update:
`save_message` increments user 1's count (so it writes the record), yet
the only `EXPIRE` it issues is the 30-day one on the new `message:1` key —
no `user:1` expiry appears among its calls (lines 130-138 have no
`expire(user_key, ...)`). -/
theorem c7_counterexample :
    (lookupA c7after.users 1).bind UserHash.message_count = some 1 ∧
    c7after.ttlLog.drop c7base.ttlLog.length = [("message:1", 30 * 86400)] ∧
    ("user:1", 90 * 86400) ∉ c7after.ttlLog.drop c7base.ttlLog.length := by
  decide

/-- Claim C7 (amended): `save_user` resets the user record's expiry to the
90-day window (value and EXPIRE call), while `save_message` — although it
writes the user record's count and last-seen — issues only the 30-day
expiry on the new message key and leaves every user-record expiry exactly
as it was. -/
theorem c7_amended (st : Store) (now : String) (uid : Nat) (ud : UserData)
    (m ty : String) (hok : st.ok = true) :
    lookupA (save_user st now uid ud).1.userTTL uid = some (90 * 86400) ∧
    (save_user st now uid ud).1.ttlLog =
      st.ttlLog ++ [("user:" ++ toString uid, 90 * 86400)] ∧
    (save_message st now uid m ty).1.userTTL = st.userTTL ∧
    (save_message st now uid m ty).1.ttlLog =
      st.ttlLog ++ [("message:" ++ toString (st.globalMessageId + 1), 30 * 86400)] ∧
    lookupA (save_message st now uid m ty).1.msgTTL (st.globalMessageId + 1) =
      some (30 * 86400) := by
  rw [save_user_eq st now uid ud hok, save_message_eq st now uid m ty hok]
  exact ⟨lookupA_setA_self .., rfl, rfl, rfl, lookupA_setA_self ..⟩

theorem c7_amended_witness :
    exStore.ok = true ∧
    lookupA (save_user exStore "t" 1 exUD).1.userTTL 1 = some (90 * 86400) :=
  ⟨rfl, (c7_amended exStore "t" 1 exUD "hi" "text" rfl).1⟩

/-! ## C3 — bounded history -/

theorem appendN_ok (st : Store) (now : String) (uid : Nat) (msg : String)
    (n : Nat) : (appendN st now uid msg n).ok = st.ok := by
  induction n with
  | zero => rfl
  | succ n ih => rw [appendN, save_message_ok, ih]

theorem appendN_gid (st : Store) (now : String) (uid : Nat) (msg : String)
    (hok : st.ok = true) (n : Nat) :
    (appendN st now uid msg n).globalMessageId = st.globalMessageId + n := by
  induction n with
  | zero => rfl
  | succ n ih =>
      have hokn : (appendN st now uid msg n).ok = true := by
        rw [appendN_ok]; exact hok
      rw [appendN, save_message_eq _ _ _ _ _ hokn]
      simp [ih]
      omega

/-- Arithmetic core of the LPUSH + LTRIM step: pushing the next id onto a
descending block of ids and keeping the 50 newest yields the next
descending block. -/
theorem take50_desc (c n : Nat) (hn : n + 1 ≤ 51) :
    ((c + n + 1) :: (List.range (min n 50)).map (fun i => c + n - i)).take 50 =
      (List.range (min (n + 1) 50)).map (fun i => c + n + 1 - i) := by
  have hcomp : ((fun i => c + n + 1 - i) ∘ Nat.succ) = (fun i => c + n - i) := by
    funext i; simp only [Function.comp]; omega
  rcases Nat.lt_or_ge n 50 with hlt | hge
  · have h1 : min n 50 = n := by omega
    have h2 : min (n + 1) 50 = n + 1 := by omega
    have hlen : ((c + n + 1) :: (List.range n).map (fun i => c + n - i)).length ≤ 50 := by
      simp; omega
    rw [h1, h2, List.take_of_length_le hlen, List.range_succ_eq_map, List.map_cons,
      List.map_map, hcomp]
    simp
  · have hn50 : n = 50 := by omega
    subst hn50
    have h1 : min 50 50 = 50 := by omega
    have h2 : min 51 50 = 50 := by omega
    rw [h1, h2, List.take_succ_cons, ← List.map_take, List.take_range]
    have h3 : min 49 50 = 49 := by omega
    rw [h3]
    conv_rhs => rw [show (50 : Nat) = 49 + 1 from rfl, List.range_succ_eq_map]
    rw [List.map_cons, List.map_map]
    have hcomp2 : ((fun i => c + 50 + 1 - i) ∘ Nat.succ) = (fun i => c + 50 - i) := by
      funext i; simp only [Function.comp]; omega
    rw [hcomp2]
    simp

/-- After `n` appends (1 ≤ n ≤ 51) starting from an absent history list,
user `uid`'s list holds the `min n 50` newest minted ids in descending
(most-recent-first) order. -/
theorem appendN_hist (st : Store) (now : String) (uid : Nat) (msg : String)
    (hok : st.ok = true) (hfresh : lookupA st.histories uid = none) :
    ∀ n, 1 ≤ n → n ≤ 51 →
      lookupA (appendN st now uid msg n).histories uid =
        some ((List.range (min n 50)).map (fun i => st.globalMessageId + n - i)) := by
  intro n
  induction n with
  | zero => omega
  | succ n ih =>
      intro _ hle
      have hokn : (appendN st now uid msg n).ok = true := by
        rw [appendN_ok]; exact hok
      rw [appendN, save_message_eq _ _ _ _ _ hokn]
      rcases Nat.eq_zero_or_pos n with h0 | hpos
      · subst h0
        simp [appendN, hfresh, lookupA_setA_self, List.range_succ]
      · have hhist := ih hpos (by omega)
        have hgid := appendN_gid st now uid msg hok n
        simp only [hgid, hhist, lookupA_setA_self, Option.getD_some]
        rw [take50_desc st.globalMessageId n hle]
        rfl

/-- Claim C3: appending 51 messages to a user whose history was empty
leaves exactly 50 entries, newest first; the evicted entry is the first
(oldest) minted id. -/
theorem c3_history_fifo (st : Store) (now : String) (uid : Nat) (msg : String)
    (hok : st.ok = true) (hfresh : lookupA st.histories uid = none) :
    ∃ L, lookupA (appendN st now uid msg 51).histories uid = some L ∧
      L.length = 50 ∧
      L = (List.range 50).map (fun i => st.globalMessageId + 51 - i) ∧
      st.globalMessageId + 1 ∉ L := by
  have h := appendN_hist st now uid msg hok hfresh 51 (by omega) (by omega)
  have hmin : min (51 : Nat) 50 = 50 := by omega
  rw [hmin] at h
  refine ⟨_, h, by simp, rfl, ?_⟩
  intro hmem
  simp only [List.mem_map, List.mem_range] at hmem
  obtain ⟨i, hi, heq⟩ := hmem
  omega

theorem c3_witness :
    exStore.ok = true ∧ lookupA exStore.histories 1 = none ∧
    ∃ L, lookupA (appendN exStore "t" 1 "m" 51).histories 1 = some L ∧
      L.length = 50 ∧
      L = (List.range 50).map (fun i => exStore.globalMessageId + 51 - i) ∧
      exStore.globalMessageId + 1 ∉ L :=
  ⟨rfl, rfl, c3_history_fifo exStore "t" 1 "m" rfl rfl⟩

/-! ## C9 — truncation and graceful failure -/

/-- Claim C9: on a live store `save_message` stores the payload with its
text cut to 500 code points and returns the minted number; on a failing
store it returns `None` with the state untouched instead of raising; and
`handle_message` acknowledges with exactly one reply either way, using the
error acknowledgement when saving failed. -/
theorem c9_truncation_and_ack (cfg : Cfg) (st : Store) (now : String)
    (uid : Nat) (m ty : String) (hr : cfg.hasRedis = true) :
    (st.ok = true →
      (save_message st now uid m ty).2 = some (st.globalMessageId + 1) ∧
      lookupA (save_message st now uid m ty).1.messages (st.globalMessageId + 1) =
        some ⟨uid, pySlice m 500, ty, now, st.globalMessageId + 1⟩ ∧
      (pySlice m 500).length ≤ 500) ∧
    (st.ok = false → save_message st now uid m ty = (st, none)) ∧
    (∃ r, (handle_message cfg st now uid m).1 = [r]) ∧
    (st.ok = false →
      (handle_message cfg st now uid m).1 =
        ["📝 Сообщение получено (ошибка сохранения)"]) := by
  have hlen : (pySlice m 500).length ≤ 500 := by
    have h : (pySlice m 500).length = (m.data.take 500).length := rfl
    rw [h, List.length_take]; omega
  refine ⟨fun hok => ?_, fun hok => save_message_fail st now uid m ty hok, ?_, fun hok => ?_⟩
  · rw [save_message_eq st now uid m ty hok]
    exact ⟨rfl, lookupA_setA_self .., hlen⟩
  · cases hok : st.ok
    · exact ⟨"📝 Сообщение получено (ошибка сохранения)",
        by simp [handle_message, hr, save_message_fail st now uid m "text" hok]⟩
    · exact ⟨"✅ Сообщение #" ++ toString (st.globalMessageId + 1) ++
          " сохранено в Upstash Redis!",
        by simp [handle_message, hr, save_message_eq st now uid m "text" hok]⟩
  · simp [handle_message, hr, save_message_fail st now uid m "text" hok]

theorem c9_witness :
    (⟨some "99", true⟩ : Cfg).hasRedis = true ∧ exStoreDown.ok = false ∧
    (handle_message ⟨some "99", true⟩ exStoreDown "t" 7 "hello").1 =
      ["📝 Сообщение получено (ошибка сохранения)"] :=
  ⟨rfl, rfl, (c9_truncation_and_ack ⟨some "99", true⟩ exStoreDown "t" 7 "hello"
    "text" rfl).2.2.2 rfl⟩

/-! ## C10 — recent-messages view -/

theorem buildViews_eq (st : Store) (ids : List Nat) :
    buildViews st ids = ids.filterMap (fun i => (lookupA st.messages i).map
      (fun md => ⟨pySlice md.text 50 ++ "...", pySlice md.timestamp 16⟩)) := by
  induction ids with
  | nil => rfl
  | cons i rest ih =>
      cases h : lookupA st.messages i <;>
        simp [buildViews, h, ih, List.filterMap_cons]

/-- Claim C10: `get_user_stats` builds the recent view from at most the
first 5 history ids, silently dropping ids whose payload hash is gone, so
it returns between 0 and 5 entries even when the list is longer. -/
theorem c10_recent_messages (st : Store) (uid : Nat) (hok : st.ok = true) :
    ∃ stats, (get_user_stats st uid).2 = some stats ∧
      stats.last_messages =
        (((lookupA st.histories uid).getD []).take 5).filterMap
          (fun i => (lookupA st.messages i).map
            (fun md => ⟨pySlice md.text 50 ++ "...", pySlice md.timestamp 16⟩)) ∧
      stats.last_messages.length ≤ 5 := by
  have key : (get_user_stats st uid).2 = some
      { message_count := ((lookupA st.users uid).getD emptyHash).message_count.getD 0
        last_seen := ((lookupA st.users uid).getD emptyHash).last_seen.getD "никогда"
        username := ((lookupA st.users uid).getD emptyHash).username.getD "неизвестно"
        last_messages := buildViews (incrCounter (incrCounter st))
          (((lookupA st.histories uid).getD []).take 5) } := by
    simp [get_user_stats, hok, get_user, incrCounter]
  refine ⟨_, key, ?_, ?_⟩
  · rw [buildViews_eq]
    rfl
  · rw [buildViews_eq]
    refine Nat.le_trans (List.length_filterMap_le _ _) ?_
    rw [List.length_take]; omega

theorem c10_witness :
    c10Store.ok = true ∧
    ∃ stats, (get_user_stats c10Store 7).2 = some stats ∧
      stats.last_messages =
        (((lookupA c10Store.histories 7).getD []).take 5).filterMap
          (fun i => (lookupA c10Store.messages i).map
            (fun md => ⟨pySlice md.text 50 ++ "...", pySlice md.timestamp 16⟩)) ∧
      stats.last_messages.length ≤ 5 :=
  ⟨rfl, c10_recent_messages c10Store 7 rfl⟩

/-! ## C2 — admin gate -/

theorem isDenied_true (cfg : Cfg) (uid : Nat) (a : String)
    (ha : cfg.adminId = some a) (hne : a ≠ "") (hu : toString uid ≠ a) :
    isDenied cfg uid = true := by
  simp [isDenied, ha, hne, hu]

/-- Claim C2: when an administrator id is configured, every invocation of
`/search`, `/admin` or `/broadcast` by a caller whose stringified id
differs from it yields exactly that handler's fixed denial reply, leaves
the store untouched (zero writes), and attempts no sends. -/
theorem c2_admin_denied (cfg : Cfg) (st : Store) (now : String) (uid : Nat)
    (args : List String) (sendOk : String → Bool) (a : String)
    (ha : cfg.adminId = some a) (hne : a ≠ "") (hu : toString uid ≠ a) :
    search_command cfg st now uid args =
      (["❌ Эта команда только для администратора"], st) ∧
    admin_command cfg st now uid = (["❌ Нет доступа"], st) ∧
    broadcast_command cfg st now uid args sendOk = ⟨["❌ Нет доступа"], [], st⟩ := by
  have hd := isDenied_true cfg uid a ha hne hu
  exact ⟨by simp [search_command, hd], by simp [admin_command, hd],
    by simp [broadcast_command, hd]⟩

theorem c2_witness :
    (⟨some "99", true⟩ : Cfg).adminId = some "99" ∧ toString (7 : Nat) ≠ "99" ∧
    search_command ⟨some "99", true⟩ exStore "t" 7 ["al"] =
      (["❌ Эта команда только для администратора"], exStore) ∧
    admin_command ⟨some "99", true⟩ exStore "t" 7 = (["❌ Нет доступа"], exStore) ∧
    broadcast_command ⟨some "99", true⟩ exStore "t" 7 ["hi"] (fun _ => true) =
      ⟨["❌ Нет доступа"], [], exStore⟩ :=
  ⟨rfl, by decide,
    c2_admin_denied ⟨some "99", true⟩ exStore "t" 7 ["al"] (fun _ => true) "99"
      rfl (by decide) (by decide)⟩

/-! ## C8 — global statistics -/

/-- With digit ids, filtering the `":messages"` marker out of `KEYS
user:*` leaves exactly the user-hash keys. -/
theorem realUsers_eq (st : Store)
    (hwf1 : ∀ p ∈ st.users,
      strContains ("user:" ++ toString p.1) ":messages" = false) :
    st.realUsers = st.users.map (fun p => "user:" ++ toString p.1) := by
  unfold Store.realUsers Store.userKeys
  rw [List.filter_append]
  have h2 : (st.histories.map
      (fun p => "user:" ++ toString p.1 ++ ":messages")).filter
        (fun k => !strContains k ":messages") = [] := by
    rw [List.filter_eq_nil_iff]
    intro k hk
    rw [List.mem_map] at hk
    obtain ⟨p, hp, rfl⟩ := hk
    simp [strContains_marker ("user:" ++ toString p.1)]
  have h1 : (st.users.map (fun p => "user:" ++ toString p.1)).filter
      (fun k => !strContains k ":messages") =
        st.users.map (fun p => "user:" ++ toString p.1) := by
    rw [List.filter_eq_self]
    intro k hk
    rw [List.mem_map] at hk
    obtain ⟨p, hp, rfl⟩ := hk
    simp [hwf1 p hp]
  rw [h1, h2, List.append_nil]

/-- Claim C8: on a live store `get_global_stats` counts as users exactly
the user-hash keys (the `:messages` history keys sharing the `user:`
prefix are excluded), reports the online status marker regardless of data
content — so in particular an empty but reachable store yields
`total_users = 0` and `today_messages = 0` — and produces the error
result exactly when the store is unreachable. -/
theorem c8_global_stats (st : Store) (today : String)
    (hwf1 : ∀ p ∈ st.users,
      strContains ("user:" ++ toString p.1) ":messages" = false) :
    (st.ok = true →
      ∃ g, (get_global_stats st today).2 = Except.ok g ∧
        g.total_users = st.users.length ∧
        g.redis_status = "✅ Online" ∧
        g.memory_used = st.memory ∧
        (st.messages = [] → g.today_messages = 0)) ∧
    (st.ok = false →
      (get_global_stats st today).2 = Except.error "store unavailable") := by
  constructor
  · intro hok
    refine ⟨{ total_users := st.realUsers.length
              today_messages := (((st.messages.map (fun p => p.2.timestamp)).take 100).filter
                (fun t => pyStartsWith t today)).length
              redis_status := if st.ok then "✅ Online" else "❌ Offline"
              memory_used := st.memory }, ?_, ?_, ?_, rfl, ?_⟩
    · simp [get_global_stats, hok, incrCounter]
      rfl
    · rw [realUsers_eq st hwf1, List.length_map]
    · simp [hok]
    · intro h; rw [h]; rfl
  · intro hok
    simp [get_global_stats, hok]

theorem c8_witness :
    exStore.ok = true ∧ exStore.users = [] ∧ exStore.messages = [] ∧
    ∃ g, (get_global_stats exStore "2024-01-01").2 = Except.ok g ∧
      g.total_users = exStore.users.length ∧
      g.redis_status = "✅ Online" ∧
      g.memory_used = exStore.memory ∧
      (exStore.messages = [] → g.today_messages = 0) :=
  ⟨rfl, rfl, rfl,
    (c8_global_stats exStore "2024-01-01" (by simp [exStore])).1 rfl⟩

/-! ## C5 — broadcast fan-out -/

/-- The fan-out loop counts exactly the accepted sends among the chat ids
it attempts, and attempts every listed key in order. -/
theorem fanout_eq (sendOk : String → Bool) (keys : List String) :
    fanout sendOk keys =
      (((keys.map (fun k => (pySplit k ':').getD 1 "")).filter sendOk).length,
        keys.map (fun k => (pySplit k ':').getD 1 "")) := by
  induction keys with
  | nil => rfl
  | cons k rest ih =>
      simp only [fanout, ih, List.map_cons, List.filter_cons]
      cases sendOk ((pySplit k ':').getD 1 "") <;> simp
      omega

/-- Claim C5 states that broadcast's final report gives the success count
over the *attempted* count.  It is false for more than 50 recipients: over
a store of 51 users with every send failing, exactly 50 sends are
attempted (the loop is capped at `real_users[:50]`), yet the report reads
`0/51` — the denominator is the full recipient count, not the attempted
50 (line 455 uses `len(real_users)`). -/
theorem c5_counterexample :
    (broadcast_command ⟨some "99", true⟩ many51 "t" 99 ["hi"]
      (fun _ => false)).sent.length = 50 ∧
    (broadcast_command ⟨some "99", true⟩ many51 "t" 99 ["hi"]
      (fun _ => false)).replies.getLast? =
      some "✅ Отправлено 0/51 пользователям" ∧
    (broadcast_command ⟨some "99", true⟩ many51 "t" 99 ["hi"]
      (fun _ => false)).replies.getLast? ≠
      some "✅ Отправлено 0/50 пользователям" := by
  set_option maxRecDepth 4000 in decide

/-- Claim C5 (amended): at most 50 sends are attempted per invocation
(exactly `min 50 N` for `N` known users), every per-recipient failure is
swallowed without aborting the remaining fan-out (the attempt trace is the
full capped key list whatever `sendOk` is), and the report gives the
success count over the *total* recipient count `N`; with every send
failing the success count is 0. -/
theorem c5_amended (cfg : Cfg) (st : Store) (now : String) (uid : Nat)
    (args : List String) (sendOk : String → Bool)
    (hd : isDenied cfg uid = false) (hargs : args ≠ [])
    (hr : cfg.hasRedis = true) (hne : st.realUsers ≠ []) :
    (broadcast_command cfg st now uid args sendOk).sent =
      (st.realUsers.take 50).map (fun k => (pySplit k ':').getD 1 "") ∧
    (broadcast_command cfg st now uid args sendOk).sent.length =
      min 50 st.realUsers.length ∧
    (broadcast_command cfg st now uid args sendOk).replies =
      ["📢 Рассылка " ++ toString st.realUsers.length ++ " пользователям...",
        "✅ Отправлено " ++
          toString ((((st.realUsers.take 50).map
            (fun k => (pySplit k ':').getD 1 "")).filter sendOk).length) ++
          "/" ++ toString st.realUsers.length ++ " пользователям"] ∧
    ((∀ c, sendOk c = false) →
      (((st.realUsers.take 50).map
        (fun k => (pySplit k ':').getD 1 "")).filter sendOk).length = 0) := by
  have hb : broadcast_command cfg st now uid args sendOk =
      ⟨["📢 Рассылка " ++ toString st.realUsers.length ++ " пользователям...",
          "✅ Отправлено " ++
            toString ((((st.realUsers.take 50).map
              (fun k => (pySplit k ':').getD 1 "")).filter sendOk).length) ++
            "/" ++ toString st.realUsers.length ++ " пользователям"],
        (st.realUsers.take 50).map (fun k => (pySplit k ':').getD 1 ""),
        (save_message st now uid
          ("/broadcast " ++ pySlice (" ".intercalate args) 50 ++ "...") "command").1⟩ := by
    rw [broadcast_command]
    simp only [hd, Bool.false_eq_true, if_false, hr, Bool.not_true,
      List.isEmpty_iff, hargs, if_false, hne, fanout_eq]
  rw [hb]
  refine ⟨rfl, ?_, rfl, ?_⟩
  · rw [List.length_map, List.length_take]
  · intro hall
    rw [List.filter_eq_nil_iff.mpr (fun c _ => by rw [hall c]; exact fun h => nomatch h)]
    rfl

theorem c5_amended_witness :
    isDenied ⟨some "99", true⟩ 99 = false ∧ c6Store.realUsers ≠ [] ∧
    (broadcast_command ⟨some "99", true⟩ c6Store "t" 99 ["hi"]
      (fun _ => false)).sent.length = min 50 c6Store.realUsers.length :=
  ⟨by decide, by decide,
    (c5_amended ⟨some "99", true⟩ c6Store "t" 99 ["hi"] (fun _ => false)
      (by decide) (by decide) rfl (by decide)).2.1⟩

/-! ## C6 — user search -/

/-- In a list with pairwise-distinct key strings, looking a member's key
up finds that member. -/
theorem findKeyList {α : Type} (keyOf : Nat × α → String) (l : List (Nat × α))
    (hnd : (l.map keyOf).Nodup) (p : Nat × α) (hp : p ∈ l) :
    l.find? (fun q => keyOf q = keyOf p) = some p := by
  induction l with
  | nil => cases hp
  | cons q rest ih =>
      rw [List.map_cons, List.nodup_cons] at hnd
      rcases List.mem_cons.mp hp with rfl | hmem
      · simp
      · by_cases hkey : keyOf q = keyOf p
        · exact absurd (hkey ▸ List.mem_map_of_mem keyOf hmem) hnd.1
        · simp [List.find?_cons, hkey]
          exact ih hnd.2 hmem

/-- The search loop's `hgetall` by key string recovers exactly the hash of
the user the key was built from, when key strings are pairwise distinct. -/
theorem hgetallByKey_self (st : Store)
    (hnd : (st.users.map (fun p => "user:" ++ toString p.1)).Nodup)
    (p : Nat × UserHash) (hp : p ∈ st.users) :
    st.hgetallByKey ("user:" ++ toString p.1) = p.2 := by
  unfold Store.hgetallByKey
  rw [findKeyList (fun q => "user:" ++ toString q.1) st.users hnd p hp]
  rfl

theorem searchLoop_append (st : Store) (term : String) (k1 k2 : List String) :
    searchLoop st term (k1 ++ k2) =
      searchLoop st term k1 ++ searchLoop st term k2 := by
  induction k1 with
  | nil => rfl
  | cons k rest ih =>
      simp only [List.cons_append, searchLoop]
      split_ifs <;> simp [ih]

/-- History-list keys are filtered out by the `":messages"` test and
contribute nothing. -/
theorem searchLoop_hist (st : Store) (term : String)
    (l : List (Nat × List Nat)) :
    searchLoop st term
      (l.map (fun p => "user:" ++ toString p.1 ++ ":messages")) = [] := by
  induction l with
  | nil => rfl
  | cons p rest ih =>
      simp only [List.map_cons, searchLoop,
        strContains_marker ("user:" ++ toString p.1), Bool.not_true,
        Bool.false_eq_true, if_false]
      exact ih

/-- The loop reads the store only through the user table. -/
theorem searchLoop_congr (st1 st2 : Store) (h : st1.users = st2.users)
    (term : String) (keys : List String) :
    searchLoop st1 term keys = searchLoop st2 term keys := by
  induction keys with
  | nil => rfl
  | cons k rest ih => simp only [searchLoop, Store.hgetallByKey, h, ih]

/-- Over the user-hash keys the loop is the filter by the code's match
condition, row-built in key order. -/
theorem searchLoop_users (st : Store) (term : String)
    (hwf1 : ∀ p ∈ st.users,
      strContains ("user:" ++ toString p.1) ":messages" = false)
    (hwf2 : ∀ p ∈ st.users,
      pySplit ("user:" ++ toString p.1) ':' = ["user", toString p.1])
    (hnd : (st.users.map (fun p => "user:" ++ toString p.1)).Nodup) :
    ∀ (l : List (Nat × UserHash)), (∀ p ∈ l, p ∈ st.users) →
      searchLoop st term (l.map (fun p => "user:" ++ toString p.1)) =
        (l.filter (fun p => codeMatches term p.1 p.2)).map
          (fun p => mkResult p.1 p.2) := by
  intro l
  induction l with
  | nil => intro _; rfl
  | cons p rest ih =>
      intro hsub
      have hp := hsub p (List.mem_cons_self ..)
      have hrest : ∀ q ∈ rest, q ∈ st.users :=
        fun q hq => hsub q (List.mem_cons_of_mem p hq)
      simp only [List.map_cons, searchLoop, hwf1 p hp, Bool.not_false, if_true,
        hgetallByKey_self st hnd p hp, List.filter_cons]
      by_cases hm : codeMatches term p.1 p.2
      · have hm' := hm
        unfold codeMatches at hm'
        simp only [hm', if_true, hm, ih hrest, List.map_cons]
        rw [hwf2 p hp]
        rfl
      · have hm' : (strContains (pyLower (p.2.username.getD "")) (pyLower term) ||
            strContains (pyLower (p.2.first_name.getD "")) (pyLower term) ||
            strContains ("user:" ++ toString p.1) term) = false := by
          unfold codeMatches at hm
          simpa using hm
        simp only [hm', Bool.false_eq_true, if_false, ih hrest,
          Bool.not_eq_true] at hm ⊢
        simp [hm]

/-- Claim C6 states that `search_users` matches the term case-insensitively
against username, first name, or the raw identifier.  It is false for the
identifier part: the code tests `search_term in key` against the whole key
string `user:<id>`, case-sensitively (line 221).  Searching `"user"` over
a store whose only user is `{username: "bob", first_name: ""}` with id 1
returns that user (the term matches the key prefix), while the spec's
match — against `"bob"`, `""`, `"1"` — returns nothing. -/
theorem c6_counterexample :
    (search_users c6Store "user").2 =
      [{ user_id := "1", username := "bob", first_name := "",
         message_count := 0 }] ∧
    search_users_spec c6Store "user" = [] := by
  decide

/-- Claim C6 (amended): `search_users` returns, in key order and capped at
10, exactly the users for which the lowered term occurs in the lowered
username or lowered first name (absent fields read as the empty string),
or the raw term occurs case-sensitively in the whole key string
`user:<id>` — so the identifier test also matches the literal `user:`
prefix and is not case-insensitive. -/
theorem c6_amended (st : Store) (term : String) (hok : st.ok = true)
    (hwf : st.KeysWf) :
    (search_users st term).2 =
      ((st.users.filter (fun p => codeMatches term p.1 p.2)).map
        (fun p => mkResult p.1 p.2)).take 10 ∧
    (search_users st term).2.length ≤ 10 := by
  obtain ⟨hwf1, hwf2, hnd⟩ := hwf
  have key : (search_users st term).2 =
      (searchLoop (incrCounter st) term (incrCounter st).userKeys).take 10 := by
    simp [search_users, hok]
  have hkeys : (incrCounter st).userKeys = st.userKeys := rfl
  rw [key, hkeys, searchLoop_congr (incrCounter st) st rfl term st.userKeys]
  unfold Store.userKeys
  rw [searchLoop_append, searchLoop_hist, List.append_nil,
    searchLoop_users st term hwf1 hwf2 hnd st.users (fun p hp => hp)]
  refine ⟨rfl, ?_⟩
  rw [List.length_take]
  omega

theorem c6_amended_witness :
    c6Store.ok = true ∧ c6Store.KeysWf ∧
    (search_users c6Store "BOB").2 =
      ((c6Store.users.filter (fun p => codeMatches "BOB" p.1 p.2)).map
        (fun p => mkResult p.1 p.2)).take 10 :=
  ⟨rfl, by decide, (c6_amended c6Store "BOB" rfl (by decide)).1⟩

end Bot
